import Mathlib

/-!
Verification of the scheduling core of `sched.c` (i3blocks): sleep-duration
planning (`longest_sleep`), the per-block update decision (`need_update`),
the per-cycle update pass (`update_status_line`), click correlation
(`handle_click`/`parse_click`), and the wake-reason (`caughtsig`) lifecycle.

The C code is shallowly embedded: machine `unsigned long` arithmetic is
modelled over `Nat` with explicit reduction modulo `2^64`, the cast to
`long` as `toSigned`, and C strings as Lean `String`s.  The external
collaborators (`block_update`, `json_print_status_line`, `json_parse`) are
out of scope of the core and appear as parameters.
-/

/-- Modelled from the spec: the transient click payload declared in the
missing `block.h` — `button`, `x`, `y` are short fixed-capacity text fields
(capacities unspecified; the byte-level truncation of `parse_click` is
modelled separately with the capacity as a parameter). -/
structure Click where
  button : String
  x : String
  y : String
  deriving DecidableEq, Repr

/-- Modelled from the spec: the block record declared in the missing
`block.h` — `name`, `instance`, `command` (empty means static), `interval`
(0 means never time-triggered), `signal`, plus the runtime fields
`last_update` (0 means never run) and the `click` payload. -/
structure Block where
  name : String
  «instance» : String
  command : String
  interval : Nat
  signal : Nat
  last_update : Nat
  click : Click
  deriving DecidableEq, Repr

/-- A status line: the immutable config blocks and the runtime
(`updated_blocks`) array, positionally aligned. -/
structure StatusLine where
  blocks : List Block
  updated_blocks : List Block
  deriving DecidableEq, Repr

/-- The all-empty click payload (`memset(&click, 0, sizeof(struct click))`
on text fields). -/
def emptyClick : Click := ⟨"", "", ""⟩

/-- One fuel-indexed unrolling of the C loop `while (b != 0) a %= b, swap(a,b)`
inside `gcd`; `b` strictly decreases each iteration, so fuel `b` suffices. -/
def cGcdLoop : Nat → Nat → Nat → Nat
  | 0, a, _ => a
  | fuel + 1, a, b => if b = 0 then a else cGcdLoop fuel b (a % b)

/-- The C `gcd` nested in `longest_sleep`: `while (b != 0) a %= b, swap(a,b)`
(the XOR-swap sequence is just a swap of `a` and `b` after `a %= b`). -/
def cGcd (a b : Nat) : Nat := cGcdLoop b a b

theorem cGcdLoop_eq_gcd (fuel : Nat) :
    ∀ a b : Nat, b ≤ fuel → cGcdLoop fuel a b = Nat.gcd a b := by
  induction fuel with
  | zero =>
    intro a b hb
    have : b = 0 := Nat.le_zero.mp hb
    subst this
    exact (Nat.gcd_zero_right a).symm
  | succ fuel ih =>
    intro a b hb
    rw [cGcdLoop]
    split
    · rename_i h0
      subst h0
      exact (Nat.gcd_zero_right a).symm
    · rename_i h0
      have hlt : a % b < b := Nat.mod_lt _ (Nat.pos_of_ne_zero h0)
      rw [ih b (a % b) (Nat.le_of_lt_succ (Nat.lt_of_lt_of_le hlt hb))]
      rw [Nat.gcd_comm, ← Nat.gcd_rec, Nat.gcd_comm]

/-- `longest_sleep`: fold the C `gcd` over all block intervals starting from
the first block's interval (`time = 0` when there are no blocks), and return
the default 5 unless the result is positive. -/
def longest_sleep (blocks : List Block) : Nat :=
  let time : Nat :=
    match blocks with
    | [] => 0
    | b :: bs => bs.foldl (fun t x => cGcd t x.interval) b.interval
  if time > 0 then time else 5

theorem cGcd_eq_gcd (a b : Nat) : cGcd a b = Nat.gcd a b :=
  cGcdLoop_eq_gcd b a b (Nat.le_refl b)

theorem foldl_cGcd_eq (bs : List Block) (x : Nat) :
    bs.foldl (fun t b => cGcd t b.interval) x =
      (bs.map Block.interval).foldl Nat.gcd x := by
  induction bs generalizing x with
  | nil => rfl
  | cons b bs ih =>
    simp only [List.foldl, List.map]
    rw [ih, cGcd_eq_gcd]

theorem longest_sleep_eq_foldl (blocks : List Block) :
    longest_sleep blocks =
      (if (blocks.map Block.interval).foldl Nat.gcd 0 > 0 then
        (blocks.map Block.interval).foldl Nat.gcd 0 else 5) := by
  cases blocks with
  | nil => rfl
  | cons b bs =>
    have h : (List.map Block.interval (b :: bs)).foldl Nat.gcd 0 =
        (bs.map Block.interval).foldl Nat.gcd b.interval := by
      simp [List.foldl]
    rw [longest_sleep, h, foldl_cGcd_eq]

theorem foldl_gcd_dvd (l : List Nat) (x : Nat) :
    (l.foldl Nat.gcd x ∣ x) ∧ ∀ a ∈ l, l.foldl Nat.gcd x ∣ a := by
  induction l generalizing x with
  | nil => simp
  | cons a l ih =>
    refine ⟨?_, ?_⟩
    · exact dvd_trans (ih (Nat.gcd x a)).1 (Nat.gcd_dvd_left x a)
    · intro c hc
      rcases List.mem_cons.mp hc with h | h
      · subst h
        exact dvd_trans (ih (Nat.gcd x c)).1 (Nat.gcd_dvd_right x c)
      · exact (ih (Nat.gcd x a)).2 c h

theorem foldl_gcd_all_zero (l : List Nat) (x : Nat)
    (h : ∀ a ∈ l, a = 0) : l.foldl Nat.gcd x = x := by
  induction l generalizing x with
  | nil => rfl
  | cons a l ih =>
    have ha : a = 0 := h a (List.mem_cons_self a l)
    simp only [List.foldl, ha, Nat.gcd_zero_right]
    exact ih x fun b hb => h b (List.mem_cons_of_mem a hb)

theorem foldl_gcd_filter (l : List Nat) (x : Nat) :
    (l.filter (fun a => a ≠ 0)).foldl Nat.gcd x = l.foldl Nat.gcd x := by
  induction l generalizing x with
  | nil => rfl
  | cons a l ih =>
    by_cases ha : a = 0
    · subst ha
      rw [List.filter_cons_of_neg (by simp), List.foldl, Nat.gcd_zero_right, ih]
    · rw [List.filter_cons_of_pos (by simp [ha]), List.foldl, List.foldl, ih]

/-- C1: the sleep duration computed by `longest_sleep` divides every nonzero
configured interval; it is the fixed default 5 when there are no blocks or
every interval is 0; and when some interval is nonzero it equals the GCD of
the nonzero intervals (the fold over all intervals coincides with the fold
over the nonzero ones since `gcd x 0 = x`). -/
theorem C1_longest_sleep_gcd (st : StatusLine) :
    (∀ b ∈ st.blocks, b.interval ≠ 0 → longest_sleep st.blocks ∣ b.interval) ∧
    ((∀ b ∈ st.blocks, b.interval = 0) → longest_sleep st.blocks = 5) ∧
    ((∃ b ∈ st.blocks, b.interval ≠ 0) →
      longest_sleep st.blocks =
        ((st.blocks.map Block.interval).filter (fun a => a ≠ 0)).foldl Nat.gcd 0) := by
  set d := (st.blocks.map Block.interval).foldl Nat.gcd 0 with hd
  refine ⟨?_, ?_, ?_⟩
  · intro b hb hbi
    have hdvd : d ∣ b.interval :=
      (foldl_gcd_dvd (st.blocks.map Block.interval) 0).2 b.interval
        (List.mem_map.mpr ⟨b, hb, rfl⟩)
    have hdpos : 0 < d := by
      rcases Nat.eq_zero_or_pos d with h0 | h0
      · exact absurd (Nat.eq_zero_of_zero_dvd (h0 ▸ hdvd)) hbi
      · exact h0
    rw [longest_sleep_eq_foldl, ← hd, if_pos hdpos]
    exact hdvd
  · intro hall
    have h0 : d = 0 := by
      rw [hd]
      exact foldl_gcd_all_zero _ _ fun a ha => by
        rcases List.mem_map.mp ha with ⟨b, hb, rfl⟩
        exact hall b hb
    rw [longest_sleep_eq_foldl, ← hd, h0]
    rfl
  · rintro ⟨b, hb, hbi⟩
    have hdvd : d ∣ b.interval :=
      (foldl_gcd_dvd (st.blocks.map Block.interval) 0).2 b.interval
        (List.mem_map.mpr ⟨b, hb, rfl⟩)
    have hdpos : 0 < d := by
      rcases Nat.eq_zero_or_pos d with h0 | h0
      · exact absurd (Nat.eq_zero_of_zero_dvd (h0 ▸ hdvd)) hbi
      · exact h0
    rw [longest_sleep_eq_foldl, ← hd, if_pos hdpos,
      foldl_gcd_filter (st.blocks.map Block.interval) 0]

/-- Concrete instantiation of the C1 theorem: blocks with intervals 4, 6, 0
yield sleep 2, which divides 4 and 6. -/
def stC1 : StatusLine :=
  { blocks :=
      [{ name := "a", «instance» := "", command := "ca", interval := 4,
         signal := 0, last_update := 0, click := emptyClick },
       { name := "b", «instance» := "", command := "cb", interval := 6,
         signal := 0, last_update := 0, click := emptyClick },
       { name := "c", «instance» := "", command := "cc", interval := 0,
         signal := 1, last_update := 0, click := emptyClick }],
    updated_blocks := [] }

theorem C1_witness :
    longest_sleep stC1.blocks = 2 ∧ longest_sleep stC1.blocks ∣ 4 ∧
      longest_sleep stC1.blocks ∣ 6 := by
  have h := (C1_longest_sleep_gcd stC1).1
  refine ⟨by decide, ?_, ?_⟩
  · exact h (stC1.blocks.get ⟨0, by decide⟩) (by decide) (by decide)
  · exact h (stC1.blocks.get ⟨1, by decide⟩) (by decide) (by decide)

/-- Word size of the C `unsigned long` arithmetic in `need_update`. -/
def W64 : Nat := 2 ^ 64

/-- Reduction of a value into the `unsigned long` range. -/
def umod (a : Nat) : Nat := a % W64

/-- `unsigned long` subtraction `a - b` (wraparound). -/
def usub (a b : Nat) : Nat := (umod a + W64 - umod b) % W64

/-- The C cast `(long) x` of an `unsigned long` value `x`. -/
def toSigned (x : Nat) : Int :=
  if x < 2 ^ 63 then (x : Int) else (x : Int) - (W64 : Int)

/-- `need_update`: `first_time = (block->last_update == 0)`. -/
def first_time_cond (b : Block) : Bool := b.last_update == 0

/-- `need_update`: when `block->interval` is nonzero,
`outdated = ((long)(next_update - now)) <= 0` with
`next_update = last_update + interval` in `unsigned long` arithmetic. -/
def outdated_cond (now : Nat) (b : Block) : Bool :=
  if b.interval ≠ 0 then
    decide (toSigned (usub (umod (b.last_update + b.interval)) now) ≤ 0)
  else false

/-- `need_update`: inside `if (caughtsig)`: `signaled = caughtsig == block->signal`. -/
def signaled_cond (caughtsig : Nat) (b : Block) : Bool :=
  if caughtsig ≠ 0 then caughtsig == b.signal else false

/-- `need_update`: inside `if (caughtsig)`: `clicked = *block->click.button != '\0'`. -/
def clicked_cond (caughtsig : Nat) (b : Block) : Bool :=
  if caughtsig ≠ 0 then b.click.button != "" else false

/-- `need_update`: the OR of the four conditions. -/
def need_update (caughtsig now : Nat) (b : Block) : Bool :=
  first_time_cond b || outdated_cond now b || signaled_cond caughtsig b ||
    clicked_cond caughtsig b

/-- Explicit value of the wraparound subtraction `usub`. -/
theorem usub_mod_eq (a b : Nat) :
    usub a b =
      if umod b ≤ umod a then umod a - umod b else umod a + W64 - umod b := by
  have hma : umod a < W64 := Nat.mod_lt _ (by decide)
  have hmb : umod b < W64 := Nat.mod_lt _ (by decide)
  unfold usub
  split
  · rename_i hle
    have he : umod a + W64 - umod b = W64 + (umod a - umod b) := by omega
    rw [he, Nat.add_mod_left]
    exact Nat.mod_eq_of_lt (by omega)
  · rename_i hlt
    exact Nat.mod_eq_of_lt (by omega)

/-- The signed-wraparound comparisons in the two directions agree except
when the wrapped difference is exactly `2^63` (half the word range). -/
theorem usub_signed_flip (a b : Nat) (h : usub a b ≠ 2 ^ 63) :
    toSigned (usub b a) ≤ 0 ↔ 0 ≤ toSigned (usub a b) := by
  have hma : umod a < W64 := Nat.mod_lt _ (by decide)
  have hmb : umod b < W64 := Nat.mod_lt _ (by decide)
  have hW : W64 = 18446744073709551616 := by decide
  have h63 : (2 : Nat) ^ 63 = 9223372036854775808 := by decide
  rw [usub_mod_eq] at h
  rw [usub_mod_eq, usub_mod_eq]
  simp only [toSigned, hW, h63] at h ⊢
  rw [hW] at hma hmb
  split_ifs at h ⊢ <;> omega

/-- C2 (amended): for a block with nonzero interval and no signal or click
present (`caughtsig = 0`, empty click), `need_update` is true iff the block
has never run (`last_update = 0`) or the code's wraparound-safe comparison
`(long)(next_update - now) <= 0` holds; the latter coincides with the
claim's formula `(long)(now - next_update) >= 0` whenever the wrapped
difference is not exactly `2^63`.  Exact equality (`now = next_update`)
yields difference 0 and triggers. -/
theorem C2_need_update_outdated (now : Nat) (b : Block)
    (hiv : b.interval ≠ 0) (_hclick : b.click.button = "") :
    (need_update 0 now b = true ↔
      (b.last_update = 0 ∨
        toSigned (usub (umod (b.last_update + b.interval)) now) ≤ 0)) ∧
    (usub now (umod (b.last_update + b.interval)) ≠ 2 ^ 63 →
      (toSigned (usub (umod (b.last_update + b.interval)) now) ≤ 0 ↔
        0 ≤ toSigned (usub now (umod (b.last_update + b.interval))))) := by
  constructor
  · simp [need_update, first_time_cond, outdated_cond, signaled_cond,
      clicked_cond, hiv]
  · intro hne
    exact usub_signed_flip now (umod (b.last_update + b.interval)) hne

/-- A block with nonzero interval, nonzero `last_update` and empty click. -/
def blockC2 : Block :=
  { name := "a", «instance» := "", command := "ca", interval := 1,
    signal := 0, last_update := 1, click := emptyClick }

/-- C2 counterexample: at `now = 2^63 + 2`, `last_update = 1`, `interval = 1`
(no signal, no click, `last_update ≠ 0`), the code triggers the update
(`(long)(next - now) = -2^63 <= 0`) while the claim's formula
`(long)(now - next) >= 0` is false (`= -2^63`): the claimed "iff" fails at
the half-range point. -/
theorem C2_counterexample :
    need_update 0 (2 ^ 63 + 2) blockC2 = true ∧
      ¬ (0 ≤ toSigned (usub (2 ^ 63 + 2)
          (umod (blockC2.last_update + blockC2.interval)))) := by
  constructor
  · decide
  · decide

/-- A block for the C2 witness: `last_update = 10`, `interval = 3`; at
`now = 13` (exact equality) the decision triggers. -/
def blockC2w : Block :=
  { name := "a", «instance» := "", command := "ca", interval := 3,
    signal := 0, last_update := 10, click := emptyClick }

theorem C2_witness :
    blockC2w.interval ≠ 0 ∧ blockC2w.click.button = "" ∧
      (need_update 0 13 blockC2w = true ↔
        (blockC2w.last_update = 0 ∨
          toSigned (usub (umod (blockC2w.last_update + blockC2w.interval)) 13) ≤ 0)) :=
  ⟨by decide, by decide, (C2_need_update_outdated 13 blockC2w (by decide) (by decide)).1⟩

/-- A pending click together with a non-none wake-reason forces a refresh
decision (shared helper). -/
theorem clicked_need_update (caughtsig now : Nat) (b : Block)
    (h1 : caughtsig ≠ 0) (h2 : b.click.button ≠ "") :
    need_update caughtsig now b = true := by
  have hc : clicked_cond caughtsig b = true := by
    unfold clicked_cond
    simp [h1, h2]
  simp [need_update, hc]

/-- A block with a pending click, nonzero `last_update` and zero interval. -/
def blockC3 : Block :=
  { name := "b", «instance» := "", command := "cb", interval := 0, signal := 1,
    last_update := 5, click := { button := "1", x := "2", y := "3" } }

/-- C3 counterexample: with wake-reason "none" (`caughtsig = 0`) a block with
a pending click is NOT decided as needing refresh — `clicked` is evaluated
only inside `if (caughtsig)`, so it is false and the whole decision is false,
contradicting the claim that the clicked condition is evaluated
unconditionally. -/
theorem C3_counterexample :
    blockC3.click.button ≠ "" ∧ clicked_cond 0 blockC3 = false ∧
      need_update 0 7 blockC3 = false := by
  refine ⟨by decide, by decide, by decide⟩

/-- C3 (amended): the clicked condition is true exactly when the wake-reason
state is non-none AND the block's attached click payload is non-empty (its
button field non-empty); whenever the wake-reason is non-none, a pending
click forces `need_update` to decide true. -/
theorem C3_clicked_cond (caughtsig now : Nat) (b : Block) :
    (clicked_cond caughtsig b =
      (decide (caughtsig ≠ 0) && (b.click.button != ""))) ∧
    (caughtsig ≠ 0 → b.click.button ≠ "" →
      need_update caughtsig now b = true) := by
  constructor
  · unfold clicked_cond
    by_cases h : caughtsig ≠ 0
    · simp [h]
    · simp [h]
  · exact clicked_need_update caughtsig now b

theorem C3_witness :
    (1 : Nat) ≠ 0 ∧ blockC3.click.button ≠ "" ∧
      need_update 1 7 blockC3 = true :=
  ⟨by decide, by decide, (C3_clicked_cond 1 7 blockC3).2 (by decide) (by decide)⟩

/-- Per-block body of the loop in `update_status_line`: skip static blocks
(`!*config_block->command`); for a block that needs an update, save the
click, overwrite the runtime block with the config block, restore the click,
run `block_update` (the external collaborator `upd`), then clear the click.
Returns the new runtime blocks together with the list of block values passed
to the collaborator (in loop order). -/
def update_blocks (upd : Block → Block) (caughtsig now : Nat) :
    List Block → List Block → List Block × List Block
  | [], _ => ([], [])
  | _ :: _, [] => ([], [])
  | cb :: cbs, ub :: ubs =>
    let r := update_blocks upd caughtsig now cbs ubs
    if cb.command = "" then (ub :: r.1, r.2)
    else if need_update caughtsig now ub then
      let primed : Block := { cb with click := ub.click }
      ({ upd primed with click := emptyClick } :: r.1, primed :: r.2)
    else (ub :: r.1, r.2)

/-- `update_status_line`: run the per-block loop over the aligned arrays,
then `if (caughtsig > 0) caughtsig = 0`.  Returns the new status line, the
new `caughtsig`, and the collaborator-invocation trace. -/
def update_status_line (upd : Block → Block) (caughtsig now : Nat)
    (st : StatusLine) : StatusLine × Nat × List Block :=
  let r := update_blocks upd caughtsig now st.blocks st.updated_blocks
  ({ st with updated_blocks := r.1 },
    if caughtsig > 0 then 0 else caughtsig, r.2)

theorem update_blocks_length (upd : Block → Block) (caughtsig now : Nat) :
    ∀ cbs ubs : List Block,
      (update_blocks upd caughtsig now cbs ubs).1.length =
        min cbs.length ubs.length := by
  intro cbs
  induction cbs with
  | nil => intro ubs; simp [update_blocks]
  | cons cb cbs ih =>
    intro ubs
    cases ubs with
    | nil => simp [update_blocks]
    | cons ub ubs =>
      rw [update_blocks]
      by_cases h1 : cb.command = ""
      · simp only [if_pos h1, List.length_cons, ih]
        omega
      · by_cases h2 : need_update caughtsig now ub
        · simp only [if_neg h1, if_pos h2, List.length_cons, ih]
          omega
        · simp only [if_neg h1, if_neg h2, List.length_cons, ih]
          omega

/-- A static config block (empty command). -/
def cbStatic : Block :=
  { name := "s", «instance» := "", command := "", interval := 2, signal := 0,
    last_update := 0, click := emptyClick }

/-- Its runtime copy, holding a pending click attached by the correlator. -/
def ubStatic : Block :=
  { name := "s", «instance» := "", command := "", interval := 2, signal := 0,
    last_update := 9, click := { button := "1", x := "0", y := "0" } }

def stC4 : StatusLine := { blocks := [cbStatic], updated_blocks := [ubStatic] }

/-- C4 counterexample: a static block is skipped by `continue` before any
click handling, so after the cycle pass its pending click payload is still
"1" — not empty as the claim ("including static blocks") states.  (A
non-static block whose decision was false would likewise keep its payload,
but with a non-none wake reason a pending click forces the decision true.) -/
theorem C4_counterexample :
    ((update_status_line (fun b => b) 1 0 stC4).1.updated_blocks.map
        fun b => b.click.button) = ["1"] := by
  decide

/-- C4 (amended): after a cycle pass made with a non-none wake-reason
(`caughtsig ≠ 0` — the state in which the correlator can have attached a
click), every NON-static block's click payload is empty: dispatched blocks
get their click cleared after `block_update`, and a non-static block with a
pending click is always dispatched (clicked forces the decision).  Static
blocks are skipped and keep their payload. -/
theorem C4_click_cleared (upd : Block → Block) (caughtsig now : Nat)
    (cbs ubs : List Block) (h : caughtsig ≠ 0) :
    ∀ p ∈ cbs.zip (update_blocks upd caughtsig now cbs ubs).1,
      p.1.command ≠ "" → p.2.click.button = "" := by
  induction cbs generalizing ubs with
  | nil =>
    intro p hp
    simp [update_blocks] at hp
  | cons cb cbs ih =>
    cases ubs with
    | nil =>
      intro p hp
      simp [update_blocks] at hp
    | cons ub ubs =>
      intro p hp hcmd
      rw [update_blocks] at hp
      by_cases h1 : cb.command = ""
      · rw [if_pos h1] at hp
        rcases List.mem_cons.mp hp with hph | hpt
        · subst hph
          exact absurd h1 hcmd
        · exact ih ubs p hpt hcmd
      · by_cases h2 : need_update caughtsig now ub = true
        · rw [if_neg h1, if_pos h2] at hp
          rcases List.mem_cons.mp hp with hph | hpt
          · subst hph
            rfl
          · exact ih ubs p hpt hcmd
        · rw [if_neg h1, if_neg h2] at hp
          rcases List.mem_cons.mp hp with hph | hpt
          · subst hph
            by_contra hne
            exact h2 (clicked_need_update caughtsig now ub h hne)
          · exact ih ubs p hpt hcmd

/-- A non-static config block and its runtime copy holding a pending click. -/
def cbC4w : Block :=
  { name := "w", «instance» := "", command := "cw", interval := 0, signal := 0,
    last_update := 0, click := emptyClick }

def ubC4w : Block :=
  { name := "w", «instance» := "", command := "cw", interval := 0, signal := 0,
    last_update := 3, click := { button := "1", x := "4", y := "5" } }

theorem C4_witness :
    (1 : Nat) ≠ 0 ∧ cbC4w.command ≠ "" ∧
      ({ cbC4w with click := emptyClick } : Block).click.button = "" :=
  ⟨by decide, by decide,
    C4_click_cleared (fun b => b) 1 0 [cbC4w] [ubC4w] (by decide)
      (cbC4w, { cbC4w with click := emptyClick }) (by decide) (by decide)⟩

/-- C5: when a non-static block is flagged as needing refresh, the block
value handed to the external update collaborator (`block_update`) is the
config block's fields — `last_update`, `name`, `instance`, `command`,
`interval`, `signal` all come from the config block — with only the pending
click payload preserved from the runtime block; and the runtime block stored
immediately after the collaborator returns has its click payload cleared. -/
theorem C5_dispatch_primed (upd : Block → Block) (caughtsig now : Nat)
    (cb ub : Block) (cbs ubs : List Block)
    (hcmd : cb.command ≠ "") (hup : need_update caughtsig now ub = true) :
    (update_blocks upd caughtsig now (cb :: cbs) (ub :: ubs)).2.head? =
        some { cb with click := ub.click } ∧
    ({ cb with click := ub.click } : Block).last_update = cb.last_update ∧
    ({ cb with click := ub.click } : Block).name = cb.name ∧
    ({ cb with click := ub.click } : Block).«instance» = cb.«instance» ∧
    ({ cb with click := ub.click } : Block).command = cb.command ∧
    ({ cb with click := ub.click } : Block).interval = cb.interval ∧
    ({ cb with click := ub.click } : Block).signal = cb.signal ∧
    ({ cb with click := ub.click } : Block).click = ub.click ∧
    (update_blocks upd caughtsig now (cb :: cbs) (ub :: ubs)).1.head? =
        some { upd { cb with click := ub.click } with click := emptyClick } ∧
    ({ upd { cb with click := ub.click } with
        click := emptyClick } : Block).click = emptyClick := by
  rw [update_blocks]
  rw [if_neg hcmd, if_pos hup]
  exact ⟨rfl, rfl, rfl, rfl, rfl, rfl, rfl, rfl, rfl, rfl⟩

/-- A non-static config block and a runtime copy due for refresh. -/
def cbC5 : Block :=
  { name := "n", «instance» := "i", command := "cmd", interval := 0,
    signal := 9, last_update := 7, click := emptyClick }

def ubC5 : Block :=
  { name := "n", «instance» := "i", command := "cmd", interval := 0,
    signal := 9, last_update := 0, click := { button := "2", x := "5", y := "6" } }

def updC5 : Block → Block := fun b => { b with last_update := 42 }

theorem C5_witness :
    cbC5.command ≠ "" ∧ need_update 0 0 ubC5 = true ∧
      (update_blocks updC5 0 0 [cbC5] [ubC5]).2.head? =
        some { cbC5 with click := ubC5.click } :=
  ⟨by decide, by decide,
    (C5_dispatch_primed updC5 0 0 cbC5 ubC5 [] [] (by decide) (by decide)).1⟩

/-- The match scan in `handle_click`: linear scan over the runtime blocks;
the first block whose `name` and `instance` both compare equal to the
notification's receives the click payload (`memcpy(&block->click, ...)`)
and the scan stops (`break`). -/
def set_click (name inst : String) (click : Click) : List Block → List Block
  | [] => []
  | b :: bs =>
    if b.name = name ∧ b.«instance» = inst then { b with click := click } :: bs
    else b :: set_click name inst click bs

/-- `handle_click` after parsing: the scan runs only when the notification
carries a name or an instance (`if (*name || *instance)`); otherwise the
status line is untouched. -/
def handle_click (name inst : String) (click : Click) (st : StatusLine) :
    StatusLine :=
  if name ≠ "" ∨ inst ≠ "" then
    { st with updated_blocks := set_click name inst click st.updated_blocks }
  else st

theorem set_click_no_match (name inst : String) (click : Click) :
    ∀ bs : List Block, (∀ b ∈ bs, ¬(b.name = name ∧ b.«instance» = inst)) →
      set_click name inst click bs = bs := by
  intro bs
  induction bs with
  | nil => intro _; rfl
  | cons b bs ih =>
    intro h
    rw [set_click, if_neg (h b (List.mem_cons_self b bs)),
      ih fun x hx => h x (List.mem_cons_of_mem b hx)]

theorem set_click_first (name inst : String) (click : Click) :
    ∀ (bs : List Block) (i : Nat) (hi : i < bs.length),
      ((bs.get ⟨i, hi⟩).name = name ∧ (bs.get ⟨i, hi⟩).«instance» = inst) →
      (∀ (j : Nat) (hj : j < bs.length), j < i →
        ¬((bs.get ⟨j, hj⟩).name = name ∧
          (bs.get ⟨j, hj⟩).«instance» = inst)) →
      set_click name inst click bs =
        bs.set i { bs.get ⟨i, hi⟩ with click := click } := by
  intro bs
  induction bs with
  | nil =>
    intro i hi
    simp at hi
  | cons b bs ih =>
    intro i hi hmatch hfirst
    cases i with
    | zero =>
      rw [set_click,
        if_pos (show b.name = name ∧ b.«instance» = inst from hmatch)]
      rfl
    | succ i =>
      have hb : ¬(b.name = name ∧ b.«instance» = inst) :=
        hfirst 0 (Nat.succ_pos bs.length) (Nat.succ_pos i)
      rw [set_click, if_neg hb,
        ih i (Nat.lt_of_succ_lt_succ hi) hmatch
          fun j hj hji => hfirst (j + 1) (Nat.succ_lt_succ hj) (Nat.succ_lt_succ hji)]
      rfl

/-- C6: a parsed click notification with both name and instance empty leaves
the status line untouched; one matching no runtime block leaves it
untouched; otherwise the first runtime block (in index order) whose
(name, instance) pair equals the notification's — and only it — receives
the click payload, and the config blocks are untouched. -/
theorem C6_handle_click (name inst : String) (click : Click)
    (st : StatusLine) :
    ((name = "" ∧ inst = "") → handle_click name inst click st = st) ∧
    ((∀ b ∈ st.updated_blocks, ¬(b.name = name ∧ b.«instance» = inst)) →
      handle_click name inst click st = st) ∧
    (¬(name = "" ∧ inst = "") →
      ∀ (i : Nat) (hi : i < st.updated_blocks.length),
        (st.updated_blocks.get ⟨i, hi⟩).name = name →
        (st.updated_blocks.get ⟨i, hi⟩).«instance» = inst →
        (∀ (j : Nat) (hj : j < st.updated_blocks.length), j < i →
          ¬((st.updated_blocks.get ⟨j, hj⟩).name = name ∧
            (st.updated_blocks.get ⟨j, hj⟩).«instance» = inst)) →
        (handle_click name inst click st).updated_blocks =
          st.updated_blocks.set i
            { st.updated_blocks.get ⟨i, hi⟩ with click := click } ∧
        (handle_click name inst click st).blocks = st.blocks) := by
  refine ⟨?_, ?_, ?_⟩
  · rintro ⟨h1, h2⟩
    subst h1
    subst h2
    rfl
  · intro hno
    unfold handle_click
    split
    · rw [set_click_no_match name inst click st.updated_blocks hno]
    · rfl
  · intro hne i hi hn hinst hfirst
    have hcond : name ≠ "" ∨ inst ≠ "" := by
      by_cases h1 : name = ""
      · by_cases h2 : inst = ""
        · exact absurd ⟨h1, h2⟩ hne
        · exact Or.inr h2
      · exact Or.inl h1
    unfold handle_click
    rw [if_pos hcond]
    exact ⟨set_click_first name inst click st.updated_blocks i hi
      ⟨hn, hinst⟩ hfirst, rfl⟩

/-- The end-to-end click scenario of the spec: a block named `vol` with
instance `master` and one with empty instance; the click with name `vol`
and empty instance goes to the second. -/
def clickC6 : Click := { button := "1", x := "10", y := "20" }

def stC6 : StatusLine :=
  { blocks := [],
    updated_blocks :=
      [{ name := "vol", «instance» := "master", command := "cv", interval := 5,
         signal := 0, last_update := 2, click := emptyClick },
       { name := "vol", «instance» := "", command := "cv", interval := 5,
         signal := 0, last_update := 2, click := emptyClick }] }

theorem C6_witness :
    ¬(("vol" : String) = "" ∧ ("" : String) = "") ∧
      (handle_click "vol" "" clickC6 stC6).updated_blocks =
        stC6.updated_blocks.set 1
          { stC6.updated_blocks.get ⟨1, by decide⟩ with click := clickC6 } :=
  ⟨by decide,
    ((C6_handle_click "vol" "" clickC6 stC6).2.2 (by decide) 1 (by decide)
      (by decide) (by decide)
      (fun j hj hji => by
        have hj0 : j = 0 := Nat.lt_one_iff.mp hji
        subst hj0
        intro hcon
        exact absurd hcon.2 (by decide : ¬(("master" : String) = "")))).1⟩

theorem set_click_length (name inst : String) (click : Click) :
    ∀ bs : List Block, (set_click name inst click bs).length = bs.length := by
  intro bs
  induction bs with
  | nil => rfl
  | cons b bs ih =>
    rw [set_click]
    split
    · rfl
    · simp [ih]

/-- `handle_click` writes only the runtime array: the config blocks are
untouched and the runtime array keeps its length. -/
theorem handle_click_frame (name inst : String) (click : Click)
    (st : StatusLine) :
    (handle_click name inst click st).blocks = st.blocks ∧
    (handle_click name inst click st).updated_blocks.length =
      st.updated_blocks.length := by
  unfold handle_click
  split
  · exact ⟨rfl, set_click_length name inst click st.updated_blocks⟩
  · exact ⟨rfl, rfl⟩

/-- Every block value handed to the update collaborator comes from a
non-static config block, so its command is non-empty. -/
theorem update_blocks_trace_cmd (upd : Block → Block) (caughtsig now : Nat) :
    ∀ cbs ubs : List Block,
      ∀ b ∈ (update_blocks upd caughtsig now cbs ubs).2, b.command ≠ "" := by
  intro cbs
  induction cbs with
  | nil =>
    intro ubs b hb
    simp [update_blocks] at hb
  | cons cb cbs ih =>
    intro ubs b hb
    cases ubs with
    | nil => simp [update_blocks] at hb
    | cons ub ubs =>
      rw [update_blocks] at hb
      by_cases h1 : cb.command = ""
      · rw [if_pos h1] at hb
        exact ih ubs b hb
      · by_cases h2 : need_update caughtsig now ub = true
        · rw [if_neg h1, if_pos h2] at hb
          rcases List.mem_cons.mp hb with hbh | hbt
          · subst hbh
            exact h1
          · exact ih ubs b hbt
        · rw [if_neg h1, if_neg h2] at hb
          exact ih ubs b hb

/-- A wake of the scheduler loop: either a cycle pass (with the wake-reason
value and current time observed at that pass) or a click notification
correlated between passes. -/
inductive Event where
  | wake (caughtsig now : Nat) : Event
  | click (name inst : String) (c : Click) : Event

/-- Arbitrarily many scheduler cycles: runs each wake's update pass and each
click correlation in order, accumulating every block value handed to the
update collaborator. -/
def run (upd : Block → Block) :
    List Event → StatusLine → StatusLine × List Block
  | [], st => (st, [])
  | Event.wake caughtsig now :: evs, st =>
    let r1 := update_status_line upd caughtsig now st
    let r2 := run upd evs r1.1
    (r2.1, r1.2.2 ++ r2.2)
  | Event.click name inst c :: evs, st =>
    run upd evs (handle_click name inst c st)

/-- C7: across arbitrarily many cycles (any interleaving of cycle passes and
click correlations, any wake reasons and times), the update collaborator is
only ever invoked with blocks whose command is non-empty — a static block is
never dispatched — while the status line keeps all its blocks for every
render pass: the config blocks are unchanged and the runtime array keeps its
length. -/
theorem C7_static_never_dispatched (upd : Block → Block) (evs : List Event)
    (st : StatusLine) (h : st.updated_blocks.length = st.blocks.length) :
    (∀ b ∈ (run upd evs st).2, b.command ≠ "") ∧
    (run upd evs st).1.blocks = st.blocks ∧
    (run upd evs st).1.updated_blocks.length = st.blocks.length := by
  induction evs generalizing st with
  | nil =>
    refine ⟨?_, rfl, ?_⟩
    · intro b hb
      simp [run] at hb
    · rw [run]
      exact h
  | cons ev evs ih =>
    cases ev with
    | wake caughtsig now =>
      have hlen : (update_status_line upd caughtsig now st).1.updated_blocks.length =
          (update_status_line upd caughtsig now st).1.blocks.length := by
        show (update_blocks upd caughtsig now st.blocks st.updated_blocks).1.length =
          st.blocks.length
        rw [update_blocks_length, h, Nat.min_self]
      have ihr := ih (update_status_line upd caughtsig now st).1 hlen
      refine ⟨?_, ?_, ?_⟩
      · intro b hb
        rw [run] at hb
        rcases List.mem_append.mp hb with hb1 | hb2
        · exact update_blocks_trace_cmd upd caughtsig now st.blocks
            st.updated_blocks b hb1
        · exact ihr.1 b hb2
      · rw [run]
        exact ihr.2.1
      · rw [run]
        exact ihr.2.2
    | click name inst c =>
      have hf := handle_click_frame name inst c st
      have hlen : (handle_click name inst c st).updated_blocks.length =
          (handle_click name inst c st).blocks.length := by
        rw [hf.1, hf.2]
        exact h
      have ihr := ih (handle_click name inst c st) hlen
      refine ⟨?_, ?_, ?_⟩
      · intro b hb
        rw [run] at hb
        exact ihr.1 b hb
      · rw [run, ihr.2.1, hf.1]
      · rw [run, ihr.2.2, hf.1]

/-- A status line with a single static block for the C7 witness. -/
def stC7 : StatusLine :=
  { blocks :=
      [{ name := "s", «instance» := "", command := "", interval := 1,
         signal := 2, last_update := 0, click := emptyClick }],
    updated_blocks :=
      [{ name := "s", «instance» := "", command := "", interval := 1,
         signal := 2, last_update := 0, click := emptyClick }] }

def evsC7 : List Event :=
  [Event.wake 0 0, Event.click "s" "" { button := "3", x := "1", y := "1" },
   Event.wake 2 5]

theorem C7_witness :
    stC7.updated_blocks.length = stC7.blocks.length ∧
      (run (fun b => b) evsC7 stC7).1.blocks = stC7.blocks :=
  ⟨by decide, (C7_static_never_dispatched (fun b => b) evsC7 stC7 (by decide)).2.1⟩

/-- C8: `update_status_line` ends with `if (caughtsig > 0) caughtsig = 0`,
so the wake-reason value returned by every cycle pass is 0 ("none"); a
following pass seeing wake-reason 0 evaluates both signal-dependent
conditions (`signaled`, `clicked`) to false for every block, so a delivered
signal influences the decisions of exactly one cycle. -/
theorem C8_caughtsig_reset (upd : Block → Block) (caughtsig now : Nat)
    (st : StatusLine) :
    (update_status_line upd caughtsig now st).2.1 = 0 ∧
    (∀ b : Block, signaled_cond 0 b = false ∧ clicked_cond 0 b = false) := by
  constructor
  · show (if caughtsig > 0 then 0 else caughtsig) = 0
    split
    · rfl
    · omega
  · intro b
    exact ⟨rfl, rfl⟩

/-- The C macro `MIN(a, b)`. -/
def MIN (a b : Nat) : Nat := if a < b then a else b

/-- Modelled from the spec: the capacity of each fixed-capacity click field
(`sizeof(click->button)` etc., declared in the missing `block.h`) is an
unspecified short size, kept as the parameter `cap`.  `copied_bytes` is the
span `memcpy(click->field, json + st, MIN(len, cap - 1))` reads: at most
`cap - 1` bytes starting at offset `st` of the input buffer. -/
def copied_bytes (json : List Nat) (st len cap : Nat) : List Nat :=
  (json.drop st).take (MIN len (cap - 1))

/-- The destination field after the `memcpy`: the copied bytes written over
a zero-initialised array of `cap` bytes (`struct click click = { "" }` in
`handle_click` zeroes the destination). -/
def copy_field (json : List Nat) (st len cap : Nat) : List Nat :=
  copied_bytes json st len cap ++
    List.replicate (cap - (copied_bytes json st len cap).length) 0

/-- C9: for every input buffer and every field span returned by the
extraction collaborator, the copy into a field of capacity `cap ≥ 1` writes
at most `cap - 1` bytes (truncating longer values), the destination keeps
exactly its `cap` bytes (no overflow), and its last byte is 0 (the field
stays null-terminated); the copy is total — truncation surfaces no error. -/
theorem C9_truncation (json : List Nat) (st len cap : Nat) (hcap : 1 ≤ cap) :
    (copied_bytes json st len cap).length ≤ cap - 1 ∧
    (copy_field json st len cap).length = cap ∧
    (copy_field json st len cap).getD (cap - 1) 1 = 0 := by
  have hmin : MIN len (cap - 1) ≤ cap - 1 := by
    unfold MIN
    split <;> omega
  have hlen : (copied_bytes json st len cap).length ≤ cap - 1 := by
    unfold copied_bytes
    rw [List.length_take]
    omega
  refine ⟨hlen, ?_, ?_⟩
  · unfold copy_field
    rw [List.length_append, List.length_replicate]
    omega
  · unfold copy_field
    rw [List.getD_append_right _ _ _ _ (by omega)]
    have hidx : cap - 1 - (copied_bytes json st len cap).length <
        cap - (copied_bytes json st len cap).length := by
      omega
    rw [List.getD_eq_getElem _ _ (by rw [List.length_replicate]; exact hidx)]
    exact List.getElem_replicate _ _

theorem C9_witness :
    1 ≤ 4 ∧ (copy_field [104, 101, 108, 108, 111] 0 10 4).length = 4 :=
  ⟨by decide, (C9_truncation [104, 101, 108, 108, 111] 0 10 4 (by decide)).2.1⟩

/-- C10: the per-cycle operations write only the runtime array: a cycle
pass and a click correlation both leave the config block array
(`status->blocks`) unchanged.  (`longest_sleep` is a pure function of the
config blocks in this embedding — it returns a number and cannot write
state — so all three per-cycle operations preserve the config array.) -/
theorem C10_config_frame (upd : Block → Block) (caughtsig now : Nat)
    (st : StatusLine) (name inst : String) (click : Click) :
    (update_status_line upd caughtsig now st).1.blocks = st.blocks ∧
    (handle_click name inst click st).blocks = st.blocks ∧
    longest_sleep ((update_status_line upd caughtsig now st).1.blocks) =
      longest_sleep st.blocks := by
  refine ⟨rfl, (handle_click_frame name inst click st).1, rfl⟩
